import Mathlib

/-!
Verification of the table comparator in `verification/compare.py`.

The comparator works on in-memory columnar tables (the PyArrow `Table`
abstraction): an ordered list of named, typed columns, each holding
`row_count` values that may be null.  We embed the data model and the
`compare_tables` routine as executable Lean functions and prove the
specified properties about them.

Modelling decisions (each mirrors concrete PyArrow behaviour):
* Column types are a closed enumeration.  `int64` and `utf8` stand for the
  sortable scalar types; `interval` stands for the scalar (non-nested)
  types for which Arrow has no ordering kernel, so `Table.sort_by` on such
  a column raises; `listT`/`structT` are the nested types
  (`pa.types.is_nested` is true exactly for these).
* Cell values are scalars or null.  Chunking does not exist in the
  embedding, so `ChunkedArray.equals` on same-typed columns and
  `to_pylist()` equality both become list equality; `equals` on columns of
  different declared types is `False` without raising.
* `pc.not_equal` propagates nulls (a null operand yields a null result),
  raises when the two input types have no common kernel (and for
  `interval`, which has no equality kernel), and `pc.index(_, True)`
  returns `-1` when no (non-null) `True` element exists.
* `Table.sort_by` sorts ascending with nulls placed at the end
  (`null_placement="at_end"`), stably, and reorders every column by the
  permutation computed from the key column.
-/

inductive ColType where
  | int64
  | utf8
  | interval
  | listT
  | structT
deriving DecidableEq

/-- `pa.types.is_nested`: true exactly for list/struct (nested) types. -/
def ColType.is_nested : ColType → Bool
  | .listT => true
  | .structT => true
  | _ => false

/-- Whether Arrow has a `sort_indices` kernel for the type
(`interval` and the nested types have none). -/
def ColType.sortableType : ColType → Bool
  | .int64 => true
  | .utf8 => true
  | _ => false

/-- Whether Arrow has an equality (`not_equal`) kernel for the type. -/
def ColType.comparableType : ColType → Bool
  | .int64 => true
  | .utf8 => true
  | _ => false

/-- A cell value: null, or a scalar. -/
inductive Val where
  | null
  | int (n : Int)
  | str (s : String)
deriving DecidableEq

/-- Lexicographic comparison of character sequences by code point (the
order Python and Arrow use on strings). -/
def charListLE : List Char → List Char → Bool
  | [], _ => true
  | _ :: _, [] => false
  | a :: as, b :: bs =>
    if a.toNat < b.toNat then true
    else if b.toNat < a.toNat then false
    else charListLE as bs

def strLE (a b : String) : Bool :=
  charListLE a.data b.data

/-- The ascending-with-nulls-at-end ordering used by `Table.sort_by`
(PyArrow default `null_placement="at_end"`). -/
def Val.sortLE : Val → Val → Bool
  | _, .null => true
  | .null, _ => false
  | .int a, .int b => a ≤ b
  | .str a, .str b => strLE a b
  | .int _, .str _ => true
  | .str _, .int _ => false

structure Column where
  name : String
  dtype : ColType
  values : List Val
deriving DecidableEq

structure Table where
  cols : List Column
deriving DecidableEq

/-- `table.num_rows`: the shared row count (0 for a table with no columns). -/
def Table.num_rows (t : Table) : Nat :=
  match t.cols with
  | [] => 0
  | c :: _ => c.values.length

/-- `table.column_names`. -/
def Table.column_names (t : Table) : List String :=
  t.cols.map Column.name

/-- `table[name]` / `table.schema.field(name)`: lookup of a column by name. -/
def Table.col (t : Table) (name : String) : Option Column :=
  t.cols.find? (fun c => c.name == name)

/-- The values held by the named column (`[]` when absent). -/
def Table.colValues (t : Table) (name : String) : List Val :=
  ((t.col name).map Column.values).getD []

/-- The declared type of the named column. -/
def Table.dtypeOf (t : Table) (name : String) : Option ColType :=
  (t.col name).map Column.dtype

/-- Well-formed table: every column holds exactly `num_rows` values and
column names are distinct (the `Table` contract assumed by the code). -/
def Table.wf (t : Table) : Prop :=
  (∀ c ∈ t.cols, c.values.length = t.num_rows) ∧ t.column_names.Nodup

instance (t : Table) : Decidable t.wf := by
  unfold Table.wf; exact inferInstance

/-- The permutation of row indices produced by sorting on the key values,
ascending, nulls at end, stable (ties keep their original order). -/
def sortPerm (keys : List Val) : List Nat :=
  List.insertionSort
    (fun i j => Val.sortLE (keys.getD i Val.null) (keys.getD j Val.null) = true)
    (List.range keys.length)

/-- Reorder a column's values by a row permutation. -/
def reorderBy (perm : List Nat) (vs : List Val) : List Val :=
  perm.map (fun i => vs.getD i Val.null)

/-- `table.sort_by(key)`: raises when the key column is missing or its type
has no ordering kernel; otherwise reorders every column by the key's sort
permutation. -/
def Table.sort_by (t : Table) (key : String) : Except String Table :=
  match t.col key with
  | none => Except.error ("Field " ++ key ++ " does not exist in schema")
  | some c =>
    if c.dtype.sortableType then
      Except.ok ⟨t.cols.map (fun col =>
        ⟨col.name, col.dtype, reorderBy (sortPerm c.values) col.values⟩)⟩
    else
      Except.error "Function sort_indices has no kernel matching input types"

/-- `cols1 & cols2` (the set of common column names, as a duplicate-free
list in first-table order; all uses sort it or test membership). -/
def commonCols (t1 t2 : Table) : List String :=
  t1.column_names.dedup.filter (fun c => t2.column_names.contains c)

/-- `cols_a - cols_b`: names present in `ta` but not in `tb`. -/
def colsOnlyIn (ta tb : Table) : List String :=
  ta.column_names.dedup.filter (fun c => !(tb.column_names.contains c))

/-- Python `sorted` on a list of strings (lexicographic by code point,
stable). -/
def sortedStrings (l : List String) : List String :=
  List.insertionSort (fun a b => strLE a b = true) l

/-- `sorted(common_cols)`: the alphabetical iteration order of the common
column names. -/
def sortedCommon (t1 t2 : Table) : List String :=
  sortedStrings (commonCols t1 t2)

/-- One entry of the `issues` list: a `type` tag and a message. -/
structure Issue where
  type : String
  message : String
deriving DecidableEq

/-- Rendering of a sorted list of column names inside a message. -/
def pyList (l : List String) : String :=
  "[" ++ String.intercalate ", " l ++ "]"

/-- The row-count check: one advisory issue when the counts differ. -/
def row_count_issues (t1 t2 : Table) (l1 l2 : String) : List Issue :=
  if t1.num_rows ≠ t2.num_rows then
    [⟨"row_count", "Row count mismatch: " ++ l1 ++ " has " ++
      toString t1.num_rows ++ " rows, " ++ l2 ++ " has " ++
      toString t2.num_rows ++ " rows"⟩]
  else []

/-- The column-set check: one issue per side holding extra columns, the
extra names listed alphabetically. -/
def column_set_issues (t1 t2 : Table) (l1 l2 : String) : List Issue :=
  (if colsOnlyIn t1 t2 ≠ [] then
    [⟨"columns", l1 ++ " has additional columns: " ++
      pyList (sortedStrings (colsOnlyIn t1 t2))⟩]
   else []) ++
  (if colsOnlyIn t2 t1 ≠ [] then
    [⟨"columns", l2 ++ " has additional columns: " ++
      pyList (sortedStrings (colsOnlyIn t2 t1))⟩]
   else [])

/-- Sort-key selection: the first common column, in alphabetical order,
whose type (read from `table1.schema`) is not nested. -/
def sortColumnChoice (t1 t2 : Table) : Option String :=
  (sortedCommon t1 t2).find? (fun c =>
    match t1.dtypeOf c with
    | some ty => !ty.is_nested
    | none => false)

/-- The per-column branch selector: `pa.types.is_nested(col_type)` with
`col_type` read from the first sorted table's schema. -/
def comparison_mode (s1 : Table) (c : String) : Bool :=
  ((s1.dtypeOf c).map ColType.is_nested).getD false

/-- `next(i for i in range(len(xs)) if xs[i] != ys[i])` over the two
pylists: `none` when the generator is exhausted (StopIteration) or `ys`
runs out first (IndexError); both are swallowed by the bare `except`. -/
def firstDiffNestedAux : List Val → List Val → Nat → Option Nat
  | [], _, _ => none
  | _ :: _, [], _ => none
  | x :: xs, y :: ys, i => if x ≠ y then some i else firstDiffNestedAux xs ys (i + 1)

def firstDiffNested (xs ys : List Val) : Option Nat :=
  firstDiffNestedAux xs ys 0

/-- The first index at which `pc.not_equal` yields `True`: both cells
non-null (null operands propagate to null, which `pc.index` skips) and the
values unequal.  `none` means no such index. -/
def notEqualIndexAux : List Val → List Val → Nat → Option Nat
  | x :: xs, y :: ys, i =>
    if x ≠ Val.null ∧ y ≠ Val.null ∧ x ≠ y then some i
    else notEqualIndexAux xs ys (i + 1)
  | _, _, _ => none

/-- `pc.index(pc.not_equal(col1, col2), True).as_py()`: raises (`none`)
when the two types have no common `not_equal` kernel or the lengths
differ; otherwise the first index where both cells are non-null and
unequal, and `-1` when there is none. -/
def firstDiffScalar (ty1 ty2 : Option ColType) (xs ys : List Val) :
    Option Int :=
  if ty1 = ty2 ∧ (ty1.map ColType.comparableType).getD false = true ∧
      xs.length = ys.length then
    match notEqualIndexAux xs ys 0 with
    | some i => some (Int.ofNat i)
    | none => some (-1)
  else none

/-- The message of a `column_values` issue, with or without the located
first-difference row. -/
def column_values_message (c : String) : Option Int → String
  | some i => "Column " ++ c ++ " has differences (first at row " ++
      toString i ++ ")"
  | none => "Column " ++ c ++ " has differences"

/-- `columns_equal` for one common column: nested types compare by
`to_pylist()` (deep logical equality of the values); other types by
`ChunkedArray.equals`, which also requires the declared types to agree. -/
def columnsEqualB (s1 s2 : Table) (c : String) : Bool :=
  if comparison_mode s1 c then
    s1.colValues c == s2.colValues c
  else
    (s1.dtypeOf c == s2.dtypeOf c) && (s1.colValues c == s2.colValues c)

/-- The first-difference index reported for a mismatching column. -/
def column_first_diff (s1 s2 : Table) (c : String) : Option Int :=
  if comparison_mode s1 c then
    (firstDiffNested (s1.colValues c) (s2.colValues c)).map Int.ofNat
  else
    firstDiffScalar (s1.dtypeOf c) (s2.dtypeOf c) (s1.colValues c)
      (s2.colValues c)

/-- The issues contributed by one common column of the sorted tables. -/
def column_issues (s1 s2 : Table) (c : String) : List Issue :=
  if columnsEqualB s1 s2 c then []
  else [⟨"column_values",
    column_values_message c (column_first_diff s1 s2 c)⟩]

def sort_error_message (e : String) : String :=
  "Error during sorting/comparison: " ++ e

def no_sortable_message : String :=
  "No sortable column found in common columns - cannot compare row-by-row"

/-- `common_cols and table1.num_rows > 0 and table2.num_rows > 0`: the
guard under which the row-by-row comparison block runs at all. -/
def rowCompareGuard (t1 t2 : Table) : Prop :=
  commonCols t1 t2 ≠ [] ∧ t1.num_rows > 0 ∧ t2.num_rows > 0

instance (t1 t2 : Table) : Decidable (rowCompareGuard t1 t2) := by
  unfold rowCompareGuard; exact inferInstance

/-- The row-by-row comparison block: runs only when there are common
columns and both tables have rows; selects a sort key, sorts both tables
by it (a sort failure becomes one `sorting` issue and ends the block),
then compares every common column in alphabetical order. -/
def row_comparison_issues (t1 t2 : Table) : List Issue :=
  if rowCompareGuard t1 t2 then
    match sortColumnChoice t1 t2 with
    | none => [⟨"sorting", no_sortable_message⟩]
    | some k =>
      match t1.sort_by k with
      | Except.error e => [⟨"sorting", sort_error_message e⟩]
      | Except.ok s1 =>
        match t2.sort_by k with
        | Except.error e => [⟨"sorting", sort_error_message e⟩]
        | Except.ok s2 => (sortedCommon t1 t2).flatMap (column_issues s1 s2)
  else []

/-- The full `issues` list accumulated by `compare_tables`, in discovery
order. -/
def compare_tables_issues (t1 t2 : Table) (l1 l2 : String) : List Issue :=
  row_count_issues t1 t2 l1 l2 ++ column_set_issues t1 t2 l1 l2 ++
    row_comparison_issues t1 t2

/-- `compare_tables`: `True` exactly when no issue was found. -/
def compare_tables (t1 t2 : Table) (l1 l2 : String) : Bool :=
  (compare_tables_issues t1 t2 l1 l2).isEmpty

deriving instance DecidableEq for Except

/-! ### Helper lemmas -/

theorem charListLE_total : ∀ as bs : List Char,
    charListLE as bs = true ∨ charListLE bs as = true := by
  intro as
  induction as with
  | nil => intro bs; left; rfl
  | cons a as ih =>
    intro bs
    cases bs with
    | nil => right; rfl
    | cons b bs =>
      simp only [charListLE]
      rcases Nat.lt_trichotomy a.toNat b.toNat with h | h | h
      · left; simp [h]
      · have h1 : ¬ a.toNat < b.toNat := by omega
        have h2 : ¬ b.toNat < a.toNat := by omega
        simpa [h1, h2] using ih bs
      · right; simp [h]

theorem charListLE_trans : ∀ as bs cs : List Char,
    charListLE as bs = true → charListLE bs cs = true →
    charListLE as cs = true := by
  intro as
  induction as with
  | nil => intro bs cs _ _; rfl
  | cons a as ih =>
    intro bs cs h1 h2
    cases bs with
    | nil => simp [charListLE] at h1
    | cons b bs =>
      cases cs with
      | nil => simp [charListLE] at h2
      | cons c cs =>
        simp only [charListLE] at h1 h2 ⊢
        split_ifs at h1 h2 ⊢ with g1 g2 g3 g4 g5 g6 <;>
          first
            | rfl
            | omega
            | exact ih bs cs h1 h2

instance : IsTotal String (fun a b => strLE a b = true) :=
  ⟨fun a b => charListLE_total a.data b.data⟩

instance : IsTrans String (fun a b => strLE a b = true) :=
  ⟨fun a b c => charListLE_trans a.data b.data c.data⟩

theorem strLE_refl (a : String) : strLE a a = true :=
  (charListLE_total a.data a.data).elim id id

theorem mem_commonCols {t1 t2 : Table} {c : String} :
    c ∈ commonCols t1 t2 ↔ c ∈ t1.column_names ∧ c ∈ t2.column_names := by
  simp [commonCols, List.mem_filter, List.mem_dedup, List.elem_iff]

theorem mem_colsOnlyIn {ta tb : Table} {c : String} :
    c ∈ colsOnlyIn ta tb ↔ c ∈ ta.column_names ∧ c ∉ tb.column_names := by
  simp [colsOnlyIn, List.mem_filter, List.mem_dedup, List.elem_iff]

theorem colsOnlyIn_eq_nil_iff {ta tb : Table} :
    colsOnlyIn ta tb = [] ↔ ∀ c ∈ ta.column_names, c ∈ tb.column_names := by
  rw [colsOnlyIn, List.filter_eq_nil_iff]
  simp [List.mem_dedup, List.elem_iff]

theorem mem_sortedCommon {t1 t2 : Table} {c : String} :
    c ∈ sortedCommon t1 t2 ↔ c ∈ commonCols t1 t2 :=
  List.mem_insertionSort _

theorem nodup_sortedCommon (t1 t2 : Table) : (sortedCommon t1 t2).Nodup :=
  (List.perm_insertionSort _ _).symm.nodup
    ((List.nodup_dedup _).filter _)

theorem sorted_sortedCommon (t1 t2 : Table) :
    (sortedCommon t1 t2).Sorted (fun a b => strLE a b = true) :=
  List.sorted_insertionSort _ _

/-- `find?` on a list sorted by `strLE` returns a minimal satisfying
element. -/
theorem find?_sorted_min {p : String → Bool} :
    ∀ {l : List String}, l.Sorted (fun a b => strLE a b = true) →
      ∀ {a : String}, l.find? p = some a →
      ∀ b ∈ l, p b = true → strLE a b = true := by
  intro l
  induction l with
  | nil => intro _ a h; simp at h
  | cons x xs ih =>
    intro hs a hfind b hb hpb
    rw [List.sorted_cons] at hs
    by_cases hx : p x
    · rw [List.find?_cons_of_pos _ hx] at hfind
      injection hfind with hfind
      subst hfind
      rcases List.mem_cons.mp hb with rfl | hb
      · exact strLE_refl _
      · exact hs.1 b hb
    · rw [List.find?_cons_of_neg _ hx] at hfind
      rcases List.mem_cons.mp hb with rfl | hb
      · simp [hpb] at hx
      · exact ih hs.2 hfind b hb hpb

theorem find?_name_mem :
    ∀ (cols : List Column) (c : String), c ∈ cols.map Column.name →
      ∃ col, cols.find? (fun x => x.name == c) = some col ∧ col.name = c := by
  intro cols
  induction cols with
  | nil => intro c h; simp at h
  | cons x xs ih =>
    intro c h
    by_cases hx : x.name = c
    · exact ⟨x, by simp [List.find?_cons_of_pos, hx], hx⟩
    · rcases (by simpa using h : c = x.name ∨ c ∈ xs.map Column.name) with h' | h'
      · exact absurd h'.symm hx
      · obtain ⟨col, hfind, hname⟩ := ih c h'
        exact ⟨col, by simpa [List.find?_cons_of_neg, hx] using hfind, hname⟩

theorem col_of_mem_names {t : Table} {c : String}
    (h : c ∈ t.column_names) :
    ∃ col, t.col c = some col ∧ col.name = c :=
  find?_name_mem t.cols c h

theorem col_some_name {t : Table} {c : String} {col : Column}
    (h : t.col c = some col) : col.name = c ∧ col ∈ t.cols := by
  refine ⟨?_, List.mem_of_find?_eq_some h⟩
  have := List.find?_some h
  simpa using this

/-- Unfolding of a successful `sort_by`. -/
theorem sort_by_ok_spec {t : Table} {k : String} {s : Table}
    (h : t.sort_by k = Except.ok s) :
    ∃ c, t.col k = some c ∧ c.dtype.sortableType = true ∧
      s.cols = t.cols.map (fun col =>
        ⟨col.name, col.dtype, reorderBy (sortPerm c.values) col.values⟩) := by
  revert h
  unfold Table.sort_by
  cases hc : t.col k with
  | none => intro h; simp at h
  | some c =>
    intro h
    dsimp only at h
    split_ifs at h with hs
    injection h with h
    exact ⟨c, rfl, hs, h ▸ rfl⟩

theorem sort_by_ok_of_sortable {t : Table} {k : String} {c : Column}
    (hc : t.col k = some c) (hs : c.dtype.sortableType = true) :
    t.sort_by k = Except.ok ⟨t.cols.map (fun col =>
      ⟨col.name, col.dtype, reorderBy (sortPerm c.values) col.values⟩)⟩ := by
  unfold Table.sort_by
  rw [hc]
  dsimp only
  rw [if_pos hs]

/-- Column lookup on a table whose columns were mapped preserving names
returns the mapped column. -/
theorem find?_name_map (g : Column → Column)
    (hg : ∀ col, (g col).name = col.name) :
    ∀ (cols : List Column) (c : String),
      (cols.map g).find? (fun x => x.name == c) =
        (cols.find? (fun x => x.name == c)).map g := by
  intro cols
  induction cols with
  | nil => intro c; rfl
  | cons x xs ih =>
    intro c
    by_cases hx : x.name = c
    · rw [List.map_cons, List.find?_cons_of_pos _ (by simp [hg, hx]),
        List.find?_cons_of_pos _ (by simp [hx])]
      rfl
    · rw [List.map_cons, List.find?_cons_of_neg _ (by simp [hg, hx]),
        List.find?_cons_of_neg _ (by simp [hx]), ih]

/-- A successful sort preserves every column's declared type. -/
theorem sort_by_ok_dtypeOf {t : Table} {k : String} {s : Table}
    (h : t.sort_by k = Except.ok s) (c : String) :
    s.dtypeOf c = t.dtypeOf c := by
  obtain ⟨key, -, -, hcols⟩ := sort_by_ok_spec h
  unfold Table.dtypeOf Table.col
  rw [hcols, find?_name_map (fun col =>
    ⟨col.name, col.dtype, reorderBy (sortPerm key.values) col.values⟩)
    (fun col => rfl)]
  cases t.cols.find? (fun x => x.name == c) <;> rfl

/-- A successful sort preserves the column names. -/
theorem sort_by_ok_column_names {t : Table} {k : String} {s : Table}
    (h : t.sort_by k = Except.ok s) :
    s.column_names = t.column_names := by
  obtain ⟨key, -, -, hcols⟩ := sort_by_ok_spec h
  unfold Table.column_names
  rw [hcols, List.map_map]
  rfl

theorem flatMap_eq_nil_of_forall {l : List String} {f : String → List Issue}
    (h : ∀ c ∈ l, f c = []) : l.flatMap f = [] := by
  induction l with
  | nil => rfl
  | cons x xs ih =>
    rw [List.flatMap_cons, h x (by simp), List.nil_append]
    exact ih fun c hc => h c (by simp [hc])

theorem row_count_issues_eq_nil_iff {t1 t2 : Table} {l1 l2 : String} :
    row_count_issues t1 t2 l1 l2 = [] ↔ t1.num_rows = t2.num_rows := by
  unfold row_count_issues
  split <;> simp_all

theorem column_set_issues_eq_nil_iff {t1 t2 : Table} {l1 l2 : String} :
    column_set_issues t1 t2 l1 l2 = [] ↔
      colsOnlyIn t1 t2 = [] ∧ colsOnlyIn t2 t1 = [] := by
  unfold column_set_issues
  by_cases hA : colsOnlyIn t1 t2 = [] <;> by_cases hB : colsOnlyIn t2 t1 = [] <;>
    simp [hA, hB]

theorem column_issues_eq_nil_iff {s1 s2 : Table} {c : String} :
    column_issues s1 s2 c = [] ↔ columnsEqualB s1 s2 c = true := by
  unfold column_issues
  split <;> simp_all

theorem columnsEqualB_colValues {s1 s2 : Table} {c : String}
    (h : columnsEqualB s1 s2 c = true) : s1.colValues c = s2.colValues c := by
  unfold columnsEqualB at h
  split at h
  · exact eq_of_beq h
  · exact eq_of_beq (Bool.and_elim_right h)

theorem columnsEqualB_refl (s : Table) (c : String) :
    columnsEqualB s s c = true := by
  unfold columnsEqualB
  split <;> simp

theorem row_count_issues_type {t1 t2 : Table} {l1 l2 : String} :
    ∀ i ∈ row_count_issues t1 t2 l1 l2, i.type = "row_count" := by
  unfold row_count_issues
  split <;> simp

theorem column_set_issues_type {t1 t2 : Table} {l1 l2 : String} :
    ∀ i ∈ column_set_issues t1 t2 l1 l2, i.type = "columns" := by
  unfold column_set_issues
  split <;> split <;> simp

theorem column_issues_type {s1 s2 : Table} {c : String} :
    ∀ i ∈ column_issues s1 s2 c, i.type = "column_values" := by
  unfold column_issues
  split <;> simp

theorem row_comparison_issues_type {t1 t2 : Table} :
    ∀ i ∈ row_comparison_issues t1 t2,
      i.type = "sorting" ∨ i.type = "column_values" := by
  unfold row_comparison_issues
  split
  · split
    · simp
    · split
      · simp
      · split
        · simp
        · intro i hi
          rw [List.mem_flatMap] at hi
          obtain ⟨c, -, hic⟩ := hi
          exact Or.inr (column_issues_type i hic)
  · simp

/-! ### Claim theorems -/

/-- Example pair for C9: columns `{a,b,c}` against `{a,b,d}`, with the
common column `b` holding different values. -/
def exC9a : Table :=
  ⟨[⟨"a", ColType.int64, [Val.int 1]⟩, ⟨"b", ColType.int64, [Val.int 5]⟩,
    ⟨"c", ColType.int64, [Val.int 7]⟩]⟩

def exC9b : Table :=
  ⟨[⟨"a", ColType.int64, [Val.int 1]⟩, ⟨"b", ColType.int64, [Val.int 6]⟩,
    ⟨"d", ColType.int64, [Val.int 8]⟩]⟩

/-- C9: comparing `{a,b,c}` against `{a,b,d}` yields exactly two
column-set findings (one naming `c` as first-table-only, one naming `d`
as second-table-only, each listing the extras alphabetically); `c` and
`d` are excluded from value comparison (they are not among the compared
common columns) while the common columns `a` and `b` are still compared
(the mismatch on `b` is detected). -/
theorem C9_column_set_detection :
    compare_tables_issues exC9a exC9b "Table 1" "Table 2"
      = [⟨"columns", "Table 1 has additional columns: [c]"⟩,
         ⟨"columns", "Table 2 has additional columns: [d]"⟩,
         ⟨"column_values", "Column b has differences (first at row 0)"⟩] ∧
    (compare_tables_issues exC9a exC9b "Table 1" "Table 2").countP
      (fun i => i.type == "columns") = 2 ∧
    sortedCommon exC9a exC9b = ["a", "b"] ∧
    "c" ∉ sortedCommon exC9a exC9b ∧ "d" ∉ sortedCommon exC9a exC9b := by
  decide

/-- Example for C7: a table whose only column is nested-typed. -/
def exC7 : Table := ⟨[⟨"a", ColType.structT, [Val.int 1]⟩]⟩

/-- C7 counterexample: `compare_tables(T, T)` is `False` for a table whose
only column is nested-typed — the comparison emits an unsortable-schema
finding instead of an empty report, so reflexivity as claimed fails. -/
theorem C7_counterexample :
    compare_tables exC7 exC7 "Table 1" "Table 2" = false ∧
    compare_tables_issues exC7 exC7 "Table 1" "Table 2"
      = [⟨"sorting", no_sortable_message⟩] := by
  decide

/-- C7 (amended): `compare_tables(T, T)` returns `True` with an empty
finding list for every table `T` that has zero rows, or no columns, or
whose sort-key selection picks a column whose type Arrow can sort. -/
theorem C7_reflexivity_amended (t : Table) (l1 l2 : String)
    (h : t.num_rows = 0 ∨ t.cols = [] ∨
      ∃ k ty, sortColumnChoice t t = some k ∧ t.dtypeOf k = some ty ∧
        ty.sortableType = true) :
    compare_tables t t l1 l2 = true ∧
    compare_tables_issues t t l1 l2 = [] := by
  have hiss : compare_tables_issues t t l1 l2 = [] := by
    unfold compare_tables_issues
    have hrc : row_count_issues t t l1 l2 = [] :=
      row_count_issues_eq_nil_iff.mpr rfl
    have hcs : column_set_issues t t l1 l2 = [] :=
      column_set_issues_eq_nil_iff.mpr
        ⟨colsOnlyIn_eq_nil_iff.mpr fun c hc => hc,
         colsOnlyIn_eq_nil_iff.mpr fun c hc => hc⟩
    have hcmp : row_comparison_issues t t = [] := by
      unfold row_comparison_issues
      by_cases hg : rowCompareGuard t t
      · rw [if_pos hg]
        rcases h with h0 | hnil | ⟨k, ty, hk, hty, hsort⟩
        · exact absurd h0 (by have := hg.2.1; omega)
        · have hcc : commonCols t t = [] := by
            simp [commonCols, Table.column_names, hnil]
          exact absurd hcc hg.1
        · rw [hk]
          dsimp only
          obtain ⟨col, hcol, hdt⟩ : ∃ col, t.col k = some col ∧
              col.dtype = ty := by
            cases hc : t.col k with
            | none => rw [Table.dtypeOf, hc] at hty; cases hty
            | some col =>
              rw [Table.dtypeOf, hc] at hty
              exact ⟨col, rfl, by simpa using hty⟩
          have hok := sort_by_ok_of_sortable hcol (by rw [hdt]; exact hsort)
          rw [hok]
          dsimp only
          exact flatMap_eq_nil_of_forall fun c _ =>
            column_issues_eq_nil_iff.mpr (columnsEqualB_refl _ c)
      · rw [if_neg hg]
    rw [hrc, hcs, hcmp]
    rfl
  exact ⟨by unfold compare_tables; rw [hiss]; rfl, hiss⟩

/-- Example for the C7 amendment witness: a sortable single-column table. -/
def exC7w : Table := ⟨[⟨"a", ColType.int64, [Val.int 3]⟩]⟩

theorem C7_reflexivity_amended_witness :
    compare_tables exC7w exC7w "Table 1" "Table 2" = true ∧
    compare_tables_issues exC7w exC7w "Table 1" "Table 2" = [] :=
  C7_reflexivity_amended exC7w "Table 1" "Table 2"
    (Or.inr (Or.inr ⟨"a", ColType.int64, by decide, by decide, by decide⟩))

/-- Example pair for the C3 counterexample: a single `int64` column whose
values differ only in null-ness at row 1. -/
def exC3a : Table := ⟨[⟨"a", ColType.int64, [Val.int 1, Val.null]⟩]⟩

def exC3b : Table := ⟨[⟨"a", ColType.int64, [Val.int 1, Val.int 2]⟩]⟩

/-- C3 counterexample: with sorted columns `[1, null]` and `[1, 2]` the
first row differing in value or null-ness is row 1, yet the single
column-value finding carries index `-1` (because `pc.not_equal` yields
null at the null position and `pc.index(_, True)` then returns `-1`) —
neither the index of the first differing row nor an index-free finding. -/
theorem C3_counterexample :
    compare_tables_issues exC3a exC3b "Table 1" "Table 2"
      = [⟨"column_values", "Column a has differences (first at row -1)"⟩] ∧
    exC3a.sort_by "a" = Except.ok exC3a ∧
    exC3b.sort_by "a" = Except.ok exC3b ∧
    firstDiffNested (exC3a.colValues "a") (exC3b.colValues "a") = some 1 ∧
    column_values_message "a" (some (-1))
      = "Column a has differences (first at row -1)" ∧
    column_values_message "a" (some 1)
      ≠ "Column a has differences (first at row -1)" ∧
    column_values_message "a" none
      ≠ "Column a has differences (first at row -1)" := by
  decide

/-- C5: when sorting by the chosen key fails, the report is exactly the
findings accumulated before the failure followed by one comparison-error
finding carrying the failure description, and no column-value finding is
emitted. -/
theorem C5_sort_failure (t1 t2 : Table) (l1 l2 k e : String)
    (hg : rowCompareGuard t1 t2)
    (hk : sortColumnChoice t1 t2 = some k)
    (he : t1.sort_by k = Except.error e ∨
      ∃ s1, t1.sort_by k = Except.ok s1 ∧ t2.sort_by k = Except.error e) :
    compare_tables_issues t1 t2 l1 l2 =
      row_count_issues t1 t2 l1 l2 ++ column_set_issues t1 t2 l1 l2 ++
        [⟨"sorting", sort_error_message e⟩] ∧
    (compare_tables_issues t1 t2 l1 l2).countP
      (fun i => i.type == "column_values") = 0 := by
  have hcmp : row_comparison_issues t1 t2 =
      [⟨"sorting", sort_error_message e⟩] := by
    unfold row_comparison_issues
    rw [if_pos hg, hk]
    dsimp only
    rcases he with h1 | ⟨s1, h1, h2⟩
    · rw [h1]
    · rw [h1]
      dsimp only
      rw [h2]
  refine ⟨by unfold compare_tables_issues; rw [hcmp], ?_⟩
  unfold compare_tables_issues
  rw [hcmp, List.countP_append, List.countP_append]
  have z1 : (row_count_issues t1 t2 l1 l2).countP
      (fun i => i.type == "column_values") = 0 :=
    List.countP_eq_zero.mpr fun i hi => by
      rw [row_count_issues_type i hi]; decide
  have z2 : (column_set_issues t1 t2 l1 l2).countP
      (fun i => i.type == "column_values") = 0 :=
    List.countP_eq_zero.mpr fun i hi => by
      rw [column_set_issues_type i hi]; decide
  rw [z1, z2]
  simp [List.countP_cons]

/-- Example for the C5 witness: a common column of a scalar type for which
Arrow has no sort kernel. -/
def exC5 : Table := ⟨[⟨"a", ColType.interval, [Val.int 0]⟩]⟩

theorem C5_sort_failure_witness :
    compare_tables_issues exC5 exC5 "Table 1" "Table 2" =
      row_count_issues exC5 exC5 "Table 1" "Table 2" ++
        column_set_issues exC5 exC5 "Table 1" "Table 2" ++
        [⟨"sorting", sort_error_message
          "Function sort_indices has no kernel matching input types"⟩] ∧
    (compare_tables_issues exC5 exC5 "Table 1" "Table 2").countP
      (fun i => i.type == "column_values") = 0 :=
  C5_sort_failure exC5 exC5 "Table 1" "Table 2" "a"
    "Function sort_indices has no kernel matching input types"
    (by decide) (by decide) (Or.inl (by decide))

/-- C6: with common columns and rows on both sides but no scalar-typed
(non-nested, per the first table's schema) common column, row-by-row
comparison is skipped with exactly one unsortable-schema finding and no
column-value finding; with no common columns or an empty table, the
row-by-row block is skipped entirely and no `sorting` finding at all is
emitted. -/
theorem C6_unsortable_schema (t1 t2 : Table) (l1 l2 : String) :
    ((rowCompareGuard t1 t2 ∧
        ∀ c ∈ commonCols t1 t2, ∀ ty, t1.dtypeOf c = some ty →
          ty.is_nested = true) →
      compare_tables_issues t1 t2 l1 l2 =
        row_count_issues t1 t2 l1 l2 ++ column_set_issues t1 t2 l1 l2 ++
          [⟨"sorting", no_sortable_message⟩] ∧
      (compare_tables_issues t1 t2 l1 l2).countP
        (fun i => i.type == "column_values") = 0) ∧
    ((commonCols t1 t2 = [] ∨ t1.num_rows = 0 ∨ t2.num_rows = 0) →
      row_comparison_issues t1 t2 = [] ∧
      compare_tables_issues t1 t2 l1 l2 =
        row_count_issues t1 t2 l1 l2 ++ column_set_issues t1 t2 l1 l2 ∧
      ∀ i ∈ compare_tables_issues t1 t2 l1 l2, i.type ≠ "sorting") := by
  constructor
  · rintro ⟨hg, hnested⟩
    have hnone : sortColumnChoice t1 t2 = none := by
      unfold sortColumnChoice
      rw [List.find?_eq_none]
      intro c hc
      have hcc : c ∈ commonCols t1 t2 := mem_sortedCommon.mp hc
      cases hty : t1.dtypeOf c with
      | none => simp [hty]
      | some ty => simp [hty, hnested c hcc ty hty]
    have hcmp : row_comparison_issues t1 t2 =
        [⟨"sorting", no_sortable_message⟩] := by
      unfold row_comparison_issues
      rw [if_pos hg, hnone]
    refine ⟨by unfold compare_tables_issues; rw [hcmp], ?_⟩
    unfold compare_tables_issues
    rw [hcmp, List.countP_append, List.countP_append]
    have z1 : (row_count_issues t1 t2 l1 l2).countP
        (fun i => i.type == "column_values") = 0 :=
      List.countP_eq_zero.mpr fun i hi => by
        rw [row_count_issues_type i hi]; decide
    have z2 : (column_set_issues t1 t2 l1 l2).countP
        (fun i => i.type == "column_values") = 0 :=
      List.countP_eq_zero.mpr fun i hi => by
        rw [column_set_issues_type i hi]; decide
    rw [z1, z2]
    decide
  · intro h
    have hg : ¬ rowCompareGuard t1 t2 := by
      unfold rowCompareGuard
      rcases h with h | h | h <;> simp [h]
    have hcmp : row_comparison_issues t1 t2 = [] := by
      unfold row_comparison_issues
      rw [if_neg hg]
    refine ⟨hcmp, by unfold compare_tables_issues; rw [hcmp, List.append_nil], ?_⟩
    intro i hi
    unfold compare_tables_issues at hi
    rw [hcmp, List.append_nil, List.mem_append] at hi
    rcases hi with hi | hi
    · rw [row_count_issues_type i hi]; decide
    · rw [column_set_issues_type i hi]; decide

/-- Example for the C6 witness: the only common column is nested-typed. -/
def exC6 : Table := ⟨[⟨"n", ColType.listT, [Val.null]⟩]⟩

theorem C6_unsortable_schema_witness :
    compare_tables_issues exC6 exC6 "Table 1" "Table 2" =
      row_count_issues exC6 exC6 "Table 1" "Table 2" ++
        column_set_issues exC6 exC6 "Table 1" "Table 2" ++
        [⟨"sorting", no_sortable_message⟩] ∧
    (compare_tables_issues exC6 exC6 "Table 1" "Table 2").countP
      (fun i => i.type == "column_values") = 0 :=
  (C6_unsortable_schema exC6 exC6 "Table 1" "Table 2").1
    ⟨by decide, by decide⟩

/-- C8: when the row counts differ, the report starts with exactly one
row-count finding (no other finding has kind `row_count`) and the
comparison still continues — the column-set findings and the row-by-row
comparison block still follow it; when a sort key is chosen and both
sorts succeed, the per-column comparison is still performed. -/
theorem C8_row_count_advisory (t1 t2 : Table) (l1 l2 : String)
    (hne : t1.num_rows ≠ t2.num_rows) :
    compare_tables_issues t1 t2 l1 l2 =
      ⟨"row_count", "Row count mismatch: " ++ l1 ++ " has " ++
        toString t1.num_rows ++ " rows, " ++ l2 ++ " has " ++
        toString t2.num_rows ++ " rows"⟩ ::
        (column_set_issues t1 t2 l1 l2 ++ row_comparison_issues t1 t2) ∧
    (compare_tables_issues t1 t2 l1 l2).countP
      (fun i => i.type == "row_count") = 1 ∧
    (∀ k s1 s2, sortColumnChoice t1 t2 = some k →
      t1.sort_by k = Except.ok s1 → t2.sort_by k = Except.ok s2 →
      rowCompareGuard t1 t2 →
      row_comparison_issues t1 t2 =
        (sortedCommon t1 t2).flatMap (column_issues s1 s2)) := by
  have hrc : row_count_issues t1 t2 l1 l2 =
      [⟨"row_count", "Row count mismatch: " ++ l1 ++ " has " ++
        toString t1.num_rows ++ " rows, " ++ l2 ++ " has " ++
        toString t2.num_rows ++ " rows"⟩] := by
    unfold row_count_issues
    rw [if_pos hne]
  refine ⟨by unfold compare_tables_issues; rw [hrc]; rfl, ?_, ?_⟩
  · unfold compare_tables_issues
    rw [hrc, List.countP_append, List.countP_append]
    have z2 : (column_set_issues t1 t2 l1 l2).countP
        (fun i => i.type == "row_count") = 0 :=
      List.countP_eq_zero.mpr fun i hi => by
        rw [column_set_issues_type i hi]; decide
    have z3 : (row_comparison_issues t1 t2).countP
        (fun i => i.type == "row_count") = 0 :=
      List.countP_eq_zero.mpr fun i hi => by
        rcases row_comparison_issues_type i hi with h | h <;> rw [h] <;> decide
    rw [z2, z3]
    simp [List.countP_cons]
  · intro k s1 s2 hk h1 h2 hg
    unfold row_comparison_issues
    rw [if_pos hg, hk]
    dsimp only
    rw [h1]
    dsimp only
    rw [h2]

/-- Example pair for the C8 witness: a two-row table against a copy with
one row removed. -/
def exC8a : Table := ⟨[⟨"a", ColType.int64, [Val.int 1, Val.int 2]⟩]⟩

def exC8b : Table := ⟨[⟨"a", ColType.int64, [Val.int 1]⟩]⟩

theorem C8_row_count_advisory_witness :
    (compare_tables_issues exC8a exC8b "Table 1" "Table 2").countP
      (fun i => i.type == "row_count") = 1 :=
  (C8_row_count_advisory exC8a exC8b "Table 1" "Table 2" (by decide)).2.1

/-- C4: the chosen sort key is a common column that is alphabetically
minimal among the common columns whose declared type — read from the
first table's schema — is not nested; in particular a nested-typed column
is never chosen. -/
theorem C4_sort_key_choice (t1 t2 : Table) (k : String)
    (_hg : rowCompareGuard t1 t2)
    (hk : sortColumnChoice t1 t2 = some k) :
    k ∈ commonCols t1 t2 ∧
    (∃ ty, t1.dtypeOf k = some ty ∧ ty.is_nested = false) ∧
    (∀ c ∈ commonCols t1 t2, ∀ ty, t1.dtypeOf c = some ty →
      ty.is_nested = false → strLE k c = true) := by
  have hk' : (sortedCommon t1 t2).find? (fun c =>
      match t1.dtypeOf c with
      | some ty => !ty.is_nested
      | none => false) = some k := hk
  have hmem : k ∈ sortedCommon t1 t2 := List.mem_of_find?_eq_some hk'
  have hp0 := List.find?_some hk'
  have hp : (match t1.dtypeOf k with
      | some ty => !ty.is_nested
      | none => false) = true := hp0
  refine ⟨mem_sortedCommon.mp hmem, ?_, ?_⟩
  · cases hty : t1.dtypeOf k with
    | none => rw [hty] at hp; cases hp
    | some ty =>
      rw [hty] at hp
      exact ⟨ty, rfl, by simpa using hp⟩
  · intro c hc ty hty hsc
    refine find?_sorted_min (sorted_sortedCommon t1 t2) hk' c
      (mem_sortedCommon.mpr hc) ?_
    show (match t1.dtypeOf c with
      | some ty => !ty.is_nested
      | none => false) = true
    rw [hty]
    simpa using hsc

/-- Example pair for the C4 witness: the alphabetically first common
column is nested, the next one scalar. -/
def exC4a : Table :=
  ⟨[⟨"a", ColType.listT, [Val.null]⟩, ⟨"b", ColType.int64, [Val.int 1]⟩]⟩

def exC4b : Table :=
  ⟨[⟨"a", ColType.listT, [Val.null]⟩, ⟨"b", ColType.int64, [Val.int 2]⟩]⟩

theorem C4_sort_key_choice_witness :
    "b" ∈ commonCols exC4a exC4b ∧
    (∃ ty, exC4a.dtypeOf "b" = some ty ∧ ty.is_nested = false) ∧
    (∀ c ∈ commonCols exC4a exC4b, ∀ ty, exC4a.dtypeOf c = some ty →
      ty.is_nested = false → strLE "b" c = true) :=
  C4_sort_key_choice exC4a exC4b "b" (by decide) (by decide)

/-- C10: the types driving sort-key selection and the nested-vs-scalar
comparison mode are read only from the first table's schema — replacing
the second table by one with the same column names and values but any
other declared types changes neither the common columns, nor the chosen
sort key, nor the row count, nor whether the row-by-row block runs; and
the mode selector evaluated on the sorted first table equals the one on
the unsorted first table (the schema is untouched by sorting). -/
theorem C10_schema_from_first_table (t1 t2 t2' : Table)
    (hn : t2.column_names = t2'.column_names)
    (hv : t2.cols.map Column.values = t2'.cols.map Column.values) :
    commonCols t1 t2 = commonCols t1 t2' ∧
    sortColumnChoice t1 t2 = sortColumnChoice t1 t2' ∧
    t2.num_rows = t2'.num_rows ∧
    (rowCompareGuard t1 t2 ↔ rowCompareGuard t1 t2') ∧
    (∀ k s1, t1.sort_by k = Except.ok s1 →
      ∀ c, comparison_mode s1 c = comparison_mode t1 c) := by
  have hcc : commonCols t1 t2 = commonCols t1 t2' := by
    unfold commonCols
    rw [hn]
  have aux : ∀ t : Table,
      t.num_rows = ((t.cols.map Column.values).headD []).length := by
    intro t
    cases h : t.cols with
    | nil => unfold Table.num_rows; rw [h]; rfl
    | cons c cs => unfold Table.num_rows; rw [h]; rfl
  have hnr : t2.num_rows = t2'.num_rows := by
    rw [aux t2, aux t2', hv]
  refine ⟨hcc, ?_, hnr, ?_, ?_⟩
  · unfold sortColumnChoice sortedCommon
    rw [hcc]
  · unfold rowCompareGuard
    rw [hcc, hnr]
  · intro k s1 h c
    unfold comparison_mode
    rw [sort_by_ok_dtypeOf h]

/-- Example triple for the C10 witness: the second table's `a` column is
retyped from `int64` to `interval` without changing names or values. -/
def exC10t1 : Table := ⟨[⟨"a", ColType.int64, [Val.int 1, Val.int 2]⟩]⟩

def exC10t2 : Table := ⟨[⟨"a", ColType.int64, [Val.int 2, Val.int 1]⟩]⟩

def exC10t2x : Table := ⟨[⟨"a", ColType.interval, [Val.int 2, Val.int 1]⟩]⟩

theorem C10_schema_from_first_table_witness :
    commonCols exC10t1 exC10t2 = commonCols exC10t1 exC10t2x ∧
    sortColumnChoice exC10t1 exC10t2 = sortColumnChoice exC10t1 exC10t2x ∧
    exC10t2.num_rows = exC10t2x.num_rows ∧
    (rowCompareGuard exC10t1 exC10t2 ↔ rowCompareGuard exC10t1 exC10t2x) ∧
    (∀ k s1, exC10t1.sort_by k = Except.ok s1 →
      ∀ c, comparison_mode s1 c = comparison_mode exC10t1 c) :=
  C10_schema_from_first_table exC10t1 exC10t2 exC10t2x (by decide) (by decide)

/-- C1: an all-clear verdict is sound — if `compare_tables` returns `True`
on well-formed tables, the row counts agree, the column name-sets agree,
and every common column holds equal values under the canonical sorted
ordering (trivially so when both tables are empty). -/
theorem C1_is_equal_invariant (t1 t2 : Table) (l1 l2 : String)
    (h1 : t1.wf) (h2 : t2.wf)
    (heq : compare_tables t1 t2 l1 l2 = true) :
    t1.num_rows = t2.num_rows ∧
    (∀ c, c ∈ t1.column_names ↔ c ∈ t2.column_names) ∧
    ∀ c ∈ commonCols t1 t2,
      (t1.num_rows = 0 → t1.colValues c = [] ∧ t2.colValues c = []) ∧
      (0 < t1.num_rows → ∃ k s1 s2, sortColumnChoice t1 t2 = some k ∧
        t1.sort_by k = Except.ok s1 ∧ t2.sort_by k = Except.ok s2 ∧
        s1.colValues c = s2.colValues c) := by
  have hiss : compare_tables_issues t1 t2 l1 l2 = [] := by
    unfold compare_tables at heq
    exact List.isEmpty_iff.mp heq
  rw [compare_tables_issues, List.append_eq_nil, List.append_eq_nil] at hiss
  obtain ⟨⟨hrc, hcs⟩, hcmp⟩ := hiss
  have hnr : t1.num_rows = t2.num_rows := row_count_issues_eq_nil_iff.mp hrc
  obtain ⟨hA, hB⟩ := column_set_issues_eq_nil_iff.mp hcs
  refine ⟨hnr, fun c => ⟨fun h => colsOnlyIn_eq_nil_iff.mp hA c h,
    fun h => colsOnlyIn_eq_nil_iff.mp hB c h⟩, ?_⟩
  intro c hc
  constructor
  · intro h0
    obtain ⟨col1, hcol1, -⟩ := col_of_mem_names (mem_commonCols.mp hc).1
    obtain ⟨col2, hcol2, -⟩ := col_of_mem_names (mem_commonCols.mp hc).2
    have hl1 : col1.values.length = 0 := by
      rw [h1.1 col1 (col_some_name hcol1).2, h0]
    have hl2 : col2.values.length = 0 := by
      rw [h2.1 col2 (col_some_name hcol2).2, ← hnr, h0]
    constructor
    · unfold Table.colValues
      rw [hcol1]
      exact List.length_eq_zero.mp hl1
    · unfold Table.colValues
      rw [hcol2]
      exact List.length_eq_zero.mp hl2
  · intro hpos
    have hg : rowCompareGuard t1 t2 := by
      refine ⟨fun hnil => ?_, hpos, hnr ▸ hpos⟩
      rw [hnil] at hc
      cases hc
    unfold row_comparison_issues at hcmp
    rw [if_pos hg] at hcmp
    cases hk : sortColumnChoice t1 t2 with
    | none => rw [hk] at hcmp; cases hcmp
    | some k =>
      rw [hk] at hcmp
      dsimp only at hcmp
      cases hs1 : t1.sort_by k with
      | error e => rw [hs1] at hcmp; cases hcmp
      | ok s1 =>
        rw [hs1] at hcmp
        dsimp only at hcmp
        cases hs2 : t2.sort_by k with
        | error e => rw [hs2] at hcmp; cases hcmp
        | ok s2 =>
          rw [hs2] at hcmp
          dsimp only at hcmp
          refine ⟨k, s1, s2, rfl, hs1, hs2, ?_⟩
          have hcmem : c ∈ sortedCommon t1 t2 := mem_sortedCommon.mpr hc
          have hci : column_issues s1 s2 c = [] := by
            cases hci : column_issues s1 s2 c with
            | nil => rfl
            | cons x xs =>
              have hx : x ∈ (sortedCommon t1 t2).flatMap
                  (column_issues s1 s2) :=
                List.mem_flatMap.mpr ⟨c, hcmem, by rw [hci]; simp⟩
              rw [hcmp] at hx
              cases hx
          exact columnsEqualB_colValues (column_issues_eq_nil_iff.mp hci)

/-- Example pair for the C1 witness: equal content in different row
orders. -/
def exC1a : Table :=
  ⟨[⟨"a", ColType.int64, [Val.int 1, Val.int 2]⟩,
    ⟨"b", ColType.utf8, [Val.str "x", Val.str "y"]⟩]⟩

def exC1b : Table :=
  ⟨[⟨"a", ColType.int64, [Val.int 2, Val.int 1]⟩,
    ⟨"b", ColType.utf8, [Val.str "y", Val.str "x"]⟩]⟩

theorem C1_is_equal_invariant_witness :
    exC1a.num_rows = exC1b.num_rows ∧
    (∀ c, c ∈ exC1a.column_names ↔ c ∈ exC1b.column_names) ∧
    ∀ c ∈ commonCols exC1a exC1b,
      (exC1a.num_rows = 0 → exC1a.colValues c = [] ∧ exC1b.colValues c = []) ∧
      (0 < exC1a.num_rows → ∃ k s1 s2, sortColumnChoice exC1a exC1b = some k ∧
        exC1a.sort_by k = Except.ok s1 ∧ exC1b.sort_by k = Except.ok s2 ∧
        s1.colValues c = s2.colValues c) :=
  C1_is_equal_invariant exC1a exC1b "Table 1" "Table 2"
    (by decide) (by decide) (by decide)

/-- C2: the comparator is a total function returning a boolean verdict
(`True` exactly when the finding list is empty), and every data-content
problem — row-count mismatch, extra columns on either side, unsortable
schema, sort failure (on either table), or a mismatching common column —
is converted into a finding in the returned report rather than escaping
as an exception. -/
theorem C2_problems_become_findings (t1 t2 : Table) (l1 l2 : String) :
    (compare_tables t1 t2 l1 l2 = true ↔
      compare_tables_issues t1 t2 l1 l2 = []) ∧
    (t1.num_rows ≠ t2.num_rows →
      ∃ i ∈ compare_tables_issues t1 t2 l1 l2, i.type = "row_count") ∧
    (colsOnlyIn t1 t2 ≠ [] →
      ∃ i ∈ compare_tables_issues t1 t2 l1 l2, i.type = "columns") ∧
    (colsOnlyIn t2 t1 ≠ [] →
      ∃ i ∈ compare_tables_issues t1 t2 l1 l2, i.type = "columns") ∧
    (rowCompareGuard t1 t2 → sortColumnChoice t1 t2 = none →
      ⟨"sorting", no_sortable_message⟩ ∈ compare_tables_issues t1 t2 l1 l2) ∧
    (rowCompareGuard t1 t2 → ∀ k e, sortColumnChoice t1 t2 = some k →
      t1.sort_by k = Except.error e →
      ⟨"sorting", sort_error_message e⟩ ∈ compare_tables_issues t1 t2 l1 l2) ∧
    (rowCompareGuard t1 t2 → ∀ k s1 e, sortColumnChoice t1 t2 = some k →
      t1.sort_by k = Except.ok s1 → t2.sort_by k = Except.error e →
      ⟨"sorting", sort_error_message e⟩ ∈ compare_tables_issues t1 t2 l1 l2) ∧
    (rowCompareGuard t1 t2 → ∀ k s1 s2 c, sortColumnChoice t1 t2 = some k →
      t1.sort_by k = Except.ok s1 → t2.sort_by k = Except.ok s2 →
      c ∈ commonCols t1 t2 → columnsEqualB s1 s2 c = false →
      ⟨"column_values", column_values_message c (column_first_diff s1 s2 c)⟩
        ∈ compare_tables_issues t1 t2 l1 l2) := by
  have hsplit : ∀ i, i ∈ row_comparison_issues t1 t2 →
      i ∈ compare_tables_issues t1 t2 l1 l2 := by
    intro i hi
    unfold compare_tables_issues
    rw [List.mem_append]
    exact Or.inr hi
  refine ⟨?_, ?_, ?_, ?_, ?_, ?_, ?_, ?_⟩
  · unfold compare_tables
    exact List.isEmpty_iff
  · intro h
    refine ⟨⟨"row_count", "Row count mismatch: " ++ l1 ++ " has " ++
      toString t1.num_rows ++ " rows, " ++ l2 ++ " has " ++
      toString t2.num_rows ++ " rows"⟩, ?_, rfl⟩
    unfold compare_tables_issues row_count_issues
    rw [if_pos h, List.mem_append, List.mem_append]
    simp
  · intro h
    refine ⟨⟨"columns", l1 ++ " has additional columns: " ++
      pyList (sortedStrings (colsOnlyIn t1 t2))⟩, ?_, rfl⟩
    unfold compare_tables_issues column_set_issues
    simp [h]
  · intro h
    refine ⟨⟨"columns", l2 ++ " has additional columns: " ++
      pyList (sortedStrings (colsOnlyIn t2 t1))⟩, ?_, rfl⟩
    unfold compare_tables_issues column_set_issues
    simp [h]
  · intro hg hnone
    apply hsplit
    unfold row_comparison_issues
    rw [if_pos hg, hnone]
    simp
  · intro hg k e hk h1
    apply hsplit
    unfold row_comparison_issues
    rw [if_pos hg, hk]
    dsimp only
    rw [h1]
    simp
  · intro hg k s1 e hk h1 h2
    apply hsplit
    unfold row_comparison_issues
    rw [if_pos hg, hk]
    dsimp only
    rw [h1]
    dsimp only
    rw [h2]
    simp
  · intro hg k s1 s2 c hk h1 h2 hc hne
    apply hsplit
    unfold row_comparison_issues
    rw [if_pos hg, hk]
    dsimp only
    rw [h1]
    dsimp only
    rw [h2]
    dsimp only
    rw [List.mem_flatMap]
    refine ⟨c, mem_sortedCommon.mpr hc, ?_⟩
    unfold column_issues
    rw [if_neg (by rw [hne]; exact Bool.false_ne_true)]
    simp

/-- Example pair for the C2 witness: differing row counts. -/
def exC2a : Table := ⟨[⟨"a", ColType.int64, [Val.int 1, Val.int 2]⟩]⟩

def exC2b : Table := ⟨[⟨"a", ColType.int64, [Val.int 1]⟩]⟩

theorem C2_problems_become_findings_witness :
    ∃ i ∈ compare_tables_issues exC2a exC2b "Table 1" "Table 2",
      i.type = "row_count" :=
  (C2_problems_become_findings exC2a exC2b "Table 1" "Table 2").2.1
    (by decide)

/-- `pc.not_equal` yields `True` at position `n`: both cells are in range
and non-null, and the values differ. -/
def scalarDiffAt (xs ys : List Val) (n : Nat) : Prop :=
  n < xs.length ∧ n < ys.length ∧ xs.getD n Val.null ≠ Val.null ∧
    ys.getD n Val.null ≠ Val.null ∧ xs.getD n Val.null ≠ ys.getD n Val.null

/-- The nested-column scan sees a difference at position `n`: both cells
in range and the (deep) values differ, nulls counted as differing from
non-nulls. -/
def nestedDiffAt (xs ys : List Val) (n : Nat) : Prop :=
  n < xs.length ∧ n < ys.length ∧ xs.getD n Val.null ≠ ys.getD n Val.null

theorem notEqualIndexAux_shift : ∀ (xs ys : List Val) (i : Nat),
    notEqualIndexAux xs ys i = (notEqualIndexAux xs ys 0).map (· + i) := by
  intro xs
  induction xs with
  | nil => intro ys i; cases ys <;> rfl
  | cons x xs ih =>
    intro ys i
    cases ys with
    | nil => rfl
    | cons y ys =>
      show (if x ≠ Val.null ∧ y ≠ Val.null ∧ x ≠ y then some i
          else notEqualIndexAux xs ys (i + 1)) =
        ((if x ≠ Val.null ∧ y ≠ Val.null ∧ x ≠ y then some 0
          else notEqualIndexAux xs ys (0 + 1)).map (· + i))
      by_cases hp : x ≠ Val.null ∧ y ≠ Val.null ∧ x ≠ y
      · rw [if_pos hp, if_pos hp]
        simp
      · rw [if_neg hp, if_neg hp]
        rw [ih ys (i + 1), ih ys (0 + 1), Option.map_map]
        congr 1
        funext m
        simp only [Function.comp_apply]
        omega

theorem firstDiffNestedAux_shift : ∀ (xs ys : List Val) (i : Nat),
    firstDiffNestedAux xs ys i = (firstDiffNestedAux xs ys 0).map (· + i) := by
  intro xs
  induction xs with
  | nil => intro ys i; cases ys <;> rfl
  | cons x xs ih =>
    intro ys i
    cases ys with
    | nil => rfl
    | cons y ys =>
      show (if x ≠ y then some i else firstDiffNestedAux xs ys (i + 1)) =
        ((if x ≠ y then some 0
          else firstDiffNestedAux xs ys (0 + 1)).map (· + i))
      by_cases hp : x ≠ y
      · rw [if_pos hp, if_pos hp]
        simp
      · rw [if_neg hp, if_neg hp]
        rw [ih ys (i + 1), ih ys (0 + 1), Option.map_map]
        congr 1
        funext m
        simp only [Function.comp_apply]
        omega

theorem scalarDiffAt_cons_zero {x y : Val} {xs ys : List Val} :
    scalarDiffAt (x :: xs) (y :: ys) 0 ↔
      x ≠ Val.null ∧ y ≠ Val.null ∧ x ≠ y := by
  simp [scalarDiffAt]

theorem scalarDiffAt_cons_succ {x y : Val} {xs ys : List Val} {m : Nat} :
    scalarDiffAt (x :: xs) (y :: ys) (m + 1) ↔ scalarDiffAt xs ys m := by
  simp [scalarDiffAt, Nat.succ_lt_succ_iff]

theorem nestedDiffAt_cons_zero {x y : Val} {xs ys : List Val} :
    nestedDiffAt (x :: xs) (y :: ys) 0 ↔ x ≠ y := by
  simp [nestedDiffAt]

theorem nestedDiffAt_cons_succ {x y : Val} {xs ys : List Val} {m : Nat} :
    nestedDiffAt (x :: xs) (y :: ys) (m + 1) ↔ nestedDiffAt xs ys m := by
  simp [nestedDiffAt, Nat.succ_lt_succ_iff]

/-- Correctness of the `pc.index(pc.not_equal(...), True)` scan: it
returns `n` exactly when position `n` is the first with both cells
non-null and unequal. -/
theorem notEqualIndex_spec : ∀ (xs ys : List Val) (n : Nat),
    notEqualIndexAux xs ys 0 = some n ↔
      (scalarDiffAt xs ys n ∧ ∀ m < n, ¬ scalarDiffAt xs ys m) := by
  intro xs
  induction xs with
  | nil =>
    intro ys n
    constructor
    · intro h; cases ys <;> cases h
    · rintro ⟨hd, -⟩; rcases hd with ⟨h, -⟩; cases h
  | cons x xs ih =>
    intro ys n
    cases ys with
    | nil =>
      constructor
      · intro h; cases h
      · rintro ⟨hd, -⟩; rcases hd with ⟨-, h, -⟩; cases h
    | cons y ys =>
      have hunf : notEqualIndexAux (x :: xs) (y :: ys) 0 =
          (if x ≠ Val.null ∧ y ≠ Val.null ∧ x ≠ y then some 0
            else (notEqualIndexAux xs ys 0).map (· + 1)) := by
        show (if x ≠ Val.null ∧ y ≠ Val.null ∧ x ≠ y then some 0
            else notEqualIndexAux xs ys (0 + 1)) = _
        by_cases hp : x ≠ Val.null ∧ y ≠ Val.null ∧ x ≠ y
        · rw [if_pos hp, if_pos hp]
        · rw [if_neg hp, if_neg hp, notEqualIndexAux_shift xs ys (0 + 1)]
      rw [hunf]
      by_cases hp : x ≠ Val.null ∧ y ≠ Val.null ∧ x ≠ y
      · rw [if_pos hp]
        constructor
        · intro h
          injection h with h
          subst h
          exact ⟨scalarDiffAt_cons_zero.mpr hp,
            fun m hm => absurd hm (Nat.not_lt_zero m)⟩
        · rintro ⟨hd, hmin⟩
          cases n with
          | zero => rfl
          | succ n =>
            exact absurd (scalarDiffAt_cons_zero.mpr hp)
              (hmin 0 (Nat.succ_pos n))
      · rw [if_neg hp]
        constructor
        · intro h
          cases haux : notEqualIndexAux xs ys 0 with
          | none => rw [haux] at h; cases h
          | some m =>
            rw [haux] at h
            injection h with h
            have h' : m + 1 = n := h
            subst h'
            obtain ⟨hd, hmin⟩ := (ih ys m).mp haux
            refine ⟨scalarDiffAt_cons_succ.mpr hd, ?_⟩
            intro j hj
            cases j with
            | zero => rw [scalarDiffAt_cons_zero]; exact hp
            | succ j =>
              rw [scalarDiffAt_cons_succ]
              exact hmin j (by omega)
        · rintro ⟨hd, hmin⟩
          cases n with
          | zero => exact absurd (scalarDiffAt_cons_zero.mp hd) hp
          | succ n =>
            have hd' := scalarDiffAt_cons_succ.mp hd
            have hmin' : ∀ m < n, ¬ scalarDiffAt xs ys m := fun m hm hdm =>
              hmin (m + 1) (by omega) (scalarDiffAt_cons_succ.mpr hdm)
            rw [(ih ys n).mpr ⟨hd', hmin'⟩]
            rfl

/-- The scan finds no index exactly when no position has both cells
non-null and unequal. -/
theorem notEqualIndexAux_none : ∀ (xs ys : List Val),
    notEqualIndexAux xs ys 0 = none ↔ ∀ m, ¬ scalarDiffAt xs ys m := by
  intro xs
  induction xs with
  | nil =>
    intro ys
    constructor
    · intro _ m hd; rcases hd with ⟨h, -⟩; cases h
    · intro _; cases ys <;> rfl
  | cons x xs ih =>
    intro ys
    cases ys with
    | nil =>
      constructor
      · intro _ m hd; rcases hd with ⟨-, h, -⟩; cases h
      · intro _; rfl
    | cons y ys =>
      have hunf : notEqualIndexAux (x :: xs) (y :: ys) 0 =
          (if x ≠ Val.null ∧ y ≠ Val.null ∧ x ≠ y then some 0
            else (notEqualIndexAux xs ys 0).map (· + 1)) := by
        show (if x ≠ Val.null ∧ y ≠ Val.null ∧ x ≠ y then some 0
            else notEqualIndexAux xs ys (0 + 1)) = _
        by_cases hp : x ≠ Val.null ∧ y ≠ Val.null ∧ x ≠ y
        · rw [if_pos hp, if_pos hp]
        · rw [if_neg hp, if_neg hp, notEqualIndexAux_shift xs ys (0 + 1)]
      rw [hunf]
      by_cases hp : x ≠ Val.null ∧ y ≠ Val.null ∧ x ≠ y
      · rw [if_pos hp]
        constructor
        · intro h; cases h
        · intro h; exact absurd (scalarDiffAt_cons_zero.mpr hp) (h 0)
      · rw [if_neg hp]
        constructor
        · intro h m
          cases haux : notEqualIndexAux xs ys 0 with
          | some j => rw [haux] at h; cases h
          | none =>
            have htail := (ih ys).mp haux
            cases m with
            | zero => rw [scalarDiffAt_cons_zero]; exact hp
            | succ m => rw [scalarDiffAt_cons_succ]; exact htail m
        · intro h
          have htail : notEqualIndexAux xs ys 0 = none :=
            (ih ys).mpr fun m hdm =>
              h (m + 1) (scalarDiffAt_cons_succ.mpr hdm)
          rw [htail]
          rfl

/-- Correctness of the nested-column first-difference scan. -/
theorem firstDiffNested_spec : ∀ (xs ys : List Val) (n : Nat),
    firstDiffNested xs ys = some n ↔
      (nestedDiffAt xs ys n ∧ ∀ m < n, ¬ nestedDiffAt xs ys m) := by
  intro xs
  induction xs with
  | nil =>
    intro ys n
    constructor
    · intro h; cases ys <;> cases h
    · rintro ⟨hd, -⟩; rcases hd with ⟨h, -⟩; cases h
  | cons x xs ih =>
    intro ys n
    cases ys with
    | nil =>
      constructor
      · intro h; cases h
      · rintro ⟨hd, -⟩; rcases hd with ⟨-, h, -⟩; cases h
    | cons y ys =>
      have hunf : firstDiffNested (x :: xs) (y :: ys) =
          (if x ≠ y then some 0
            else (firstDiffNested xs ys).map (· + 1)) := by
        show (if x ≠ y then some 0 else firstDiffNestedAux xs ys (0 + 1)) = _
        by_cases hp : x ≠ y
        · rw [if_pos hp, if_pos hp]
        · rw [if_neg hp, if_neg hp, firstDiffNestedAux_shift xs ys (0 + 1)]
          rfl
      rw [hunf]
      by_cases hp : x ≠ y
      · rw [if_pos hp]
        constructor
        · intro h
          injection h with h
          subst h
          exact ⟨nestedDiffAt_cons_zero.mpr hp,
            fun m hm => absurd hm (Nat.not_lt_zero m)⟩
        · rintro ⟨hd, hmin⟩
          cases n with
          | zero => rfl
          | succ n =>
            exact absurd (nestedDiffAt_cons_zero.mpr hp)
              (hmin 0 (Nat.succ_pos n))
      · rw [if_neg hp]
        constructor
        · intro h
          cases haux : firstDiffNested xs ys with
          | none => rw [haux] at h; cases h
          | some m =>
            rw [haux] at h
            injection h with h
            have h' : m + 1 = n := h
            subst h'
            obtain ⟨hd, hmin⟩ := (ih ys m).mp haux
            refine ⟨nestedDiffAt_cons_succ.mpr hd, ?_⟩
            intro j hj
            cases j with
            | zero => rw [nestedDiffAt_cons_zero]; exact hp
            | succ j =>
              rw [nestedDiffAt_cons_succ]
              exact hmin j (by omega)
        · rintro ⟨hd, hmin⟩
          cases n with
          | zero => exact absurd (nestedDiffAt_cons_zero.mp hd) hp
          | succ n =>
            have hd' := nestedDiffAt_cons_succ.mp hd
            have hmin' : ∀ m < n, ¬ nestedDiffAt xs ys m := fun m hm hdm =>
              hmin (m + 1) (by omega) (nestedDiffAt_cons_succ.mpr hdm)
            rw [(ih ys n).mpr ⟨hd', hmin'⟩]
            rfl

/-- C3 (amended): whenever a common column mismatches across the two
sorted tables, exactly one column-value finding is emitted for that
column (its position in the report shown by the `pre`/`post` split of the
compared columns, every other finding coming from a different column
name).  The finding carries the index computed by the code: for a
scalar-mode column, the first row with both cells non-null and unequal,
`-1` when every difference involves a null; for a nested-mode column, the
first row (within range of both columns) whose values differ, nulls
included; and no index at all when the lookup fails.  The concrete
`[1,2,3]` vs `[1,2,99]` case of the claim yields index 2 (see the
witness). -/
theorem C3_value_mismatch_amended (t1 t2 : Table) (k : String)
    (s1 s2 : Table) (c : String)
    (hg : rowCompareGuard t1 t2)
    (hk : sortColumnChoice t1 t2 = some k)
    (h1 : t1.sort_by k = Except.ok s1)
    (h2 : t2.sort_by k = Except.ok s2)
    (hc : c ∈ commonCols t1 t2)
    (hne : columnsEqualB s1 s2 c = false) :
    (∃ pre post,
      sortedCommon t1 t2 = pre ++ c :: post ∧ c ∉ pre ∧ c ∉ post ∧
      row_comparison_issues t1 t2 =
        pre.flatMap (column_issues s1 s2) ++
          ⟨"column_values",
            column_values_message c (column_first_diff s1 s2 c)⟩ ::
          post.flatMap (column_issues s1 s2)) ∧
    (∀ n : Nat, column_first_diff s1 s2 c = some (Int.ofNat n) →
      comparison_mode s1 c = true →
      nestedDiffAt (s1.colValues c) (s2.colValues c) n ∧
        ∀ m < n, ¬ nestedDiffAt (s1.colValues c) (s2.colValues c) m) ∧
    (∀ n : Nat, column_first_diff s1 s2 c = some (Int.ofNat n) →
      comparison_mode s1 c = false →
      scalarDiffAt (s1.colValues c) (s2.colValues c) n ∧
        ∀ m < n, ¬ scalarDiffAt (s1.colValues c) (s2.colValues c) m) ∧
    (column_first_diff s1 s2 c = some (-1) →
      ∀ m, ¬ scalarDiffAt (s1.colValues c) (s2.colValues c) m) := by
  have hci : column_issues s1 s2 c =
      [⟨"column_values",
        column_values_message c (column_first_diff s1 s2 c)⟩] := by
    unfold column_issues
    rw [if_neg (by rw [hne]; exact Bool.false_ne_true)]
  refine ⟨?_, ?_, ?_, ?_⟩
  · have hflat : row_comparison_issues t1 t2 =
        (sortedCommon t1 t2).flatMap (column_issues s1 s2) := by
      unfold row_comparison_issues
      rw [if_pos hg, hk]
      dsimp only
      rw [h1]
      dsimp only
      rw [h2]
    obtain ⟨pre, post, hsplit⟩ :=
      List.append_of_mem (mem_sortedCommon.mpr hc)
    have hnd := nodup_sortedCommon t1 t2
    rw [hsplit, List.nodup_append] at hnd
    obtain ⟨-, hndcons, hdisj⟩ := hnd
    refine ⟨pre, post, hsplit,
      fun hcp => hdisj hcp (List.mem_cons_self c post),
      (List.nodup_cons.mp hndcons).1, ?_⟩
    rw [hflat, hsplit, List.flatMap_append, List.flatMap_cons, hci]
    rfl
  · intro n hsome hmode
    simp only [column_first_diff, hmode, if_true] at hsome
    cases haux : firstDiffNested (s1.colValues c) (s2.colValues c) with
    | none => rw [haux] at hsome; cases hsome
    | some m =>
      rw [haux] at hsome
      have hsome' : some (Int.ofNat m) = some (Int.ofNat n) := hsome
      have hmn : m = n := Int.ofNat.inj (Option.some.inj hsome')
      subst hmn
      exact (firstDiffNested_spec _ _ m).mp haux
  · intro n hsome hmode
    simp only [column_first_diff, hmode, Bool.false_eq_true, if_false]
      at hsome
    unfold firstDiffScalar at hsome
    split_ifs at hsome with hgate
    cases haux : notEqualIndexAux (s1.colValues c) (s2.colValues c) 0 with
    | none =>
      rw [haux] at hsome
      have h' : (-1 : Int) = (n : Int) := Option.some.inj hsome
      omega
    | some i =>
      rw [haux] at hsome
      have hsome' : some (Int.ofNat i) = some (Int.ofNat n) := hsome
      have hin : i = n := Int.ofNat.inj (Option.some.inj hsome')
      subst hin
      exact (notEqualIndex_spec _ _ i).mp haux
  · intro hsome
    by_cases hmode : comparison_mode s1 c
    · simp only [column_first_diff, hmode, if_true] at hsome
      cases haux : firstDiffNested (s1.colValues c) (s2.colValues c) with
      | none => rw [haux] at hsome; cases hsome
      | some m =>
        rw [haux] at hsome
        have h' : (m : Int) = -1 := Option.some.inj hsome
        omega
    · simp only [column_first_diff, hmode, Bool.false_eq_true, if_false]
        at hsome
      unfold firstDiffScalar at hsome
      split_ifs at hsome with hgate
      cases haux : notEqualIndexAux (s1.colValues c) (s2.colValues c) 0 with
      | none => exact (notEqualIndexAux_none _ _).mp haux
      | some i =>
        rw [haux] at hsome
        have h' : (i : Int) = -1 := Option.some.inj hsome
        omega

/-- Example pair for the C3 amendment witness: the claim's own
`[1,2,3]` vs `[1,2,99]` single-column tables. -/
def exC3c : Table :=
  ⟨[⟨"a", ColType.int64, [Val.int 1, Val.int 2, Val.int 3]⟩]⟩

def exC3d : Table :=
  ⟨[⟨"a", ColType.int64, [Val.int 1, Val.int 2, Val.int 99]⟩]⟩

theorem C3_value_mismatch_amended_witness :
    ((∃ pre post,
      sortedCommon exC3c exC3d = pre ++ "a" :: post ∧
        "a" ∉ pre ∧ "a" ∉ post ∧
      row_comparison_issues exC3c exC3d =
        pre.flatMap (column_issues exC3c exC3d) ++
          ⟨"column_values",
            column_values_message "a" (column_first_diff exC3c exC3d "a")⟩ ::
          post.flatMap (column_issues exC3c exC3d)) ∧
    (∀ n : Nat, column_first_diff exC3c exC3d "a" = some (Int.ofNat n) →
      comparison_mode exC3c "a" = true →
      nestedDiffAt (exC3c.colValues "a") (exC3d.colValues "a") n ∧
        ∀ m < n, ¬ nestedDiffAt (exC3c.colValues "a") (exC3d.colValues "a") m) ∧
    (∀ n : Nat, column_first_diff exC3c exC3d "a" = some (Int.ofNat n) →
      comparison_mode exC3c "a" = false →
      scalarDiffAt (exC3c.colValues "a") (exC3d.colValues "a") n ∧
        ∀ m < n, ¬ scalarDiffAt (exC3c.colValues "a") (exC3d.colValues "a") m) ∧
    (column_first_diff exC3c exC3d "a" = some (-1) →
      ∀ m, ¬ scalarDiffAt (exC3c.colValues "a") (exC3d.colValues "a") m)) ∧
    column_first_diff exC3c exC3d "a" = some 2 ∧
    compare_tables_issues exC3c exC3d "Table 1" "Table 2"
      = [⟨"column_values", "Column a has differences (first at row 2)"⟩] :=
  ⟨C3_value_mismatch_amended exC3c exC3d "a" exC3c exC3d "a"
      (by decide) (by decide) (by decide) (by decide) (by decide) (by decide),
    by decide, by decide⟩
